import Mathlib

/-!
Shallow embedding of the clmonetizer-app ingestion pipeline
(`backend/app/services/scraper_service.py`, `backend/app/services/ai_service.py`,
`backend/app/api/endpoints.py`, `backend/app/models.py`) together with proofs
about the embedded definitions.

String processing is modelled on `List Char` with structural recursion so that
every definition evaluates inside the kernel.  Python text is `String`; each
wrapper names the Python/JS primitive it models.

Note on the source: `endpoints.py` line 105 is missing the closing parenthesis
of the `Listing(...)` constructor call (a syntax slip); the embedding follows
the evident intent of that call.  `models.py` declares only a subset of the
columns that `endpoints.py` writes; see the `listingColumns` inventory and the
theorems for claim C8.
-/

/-! ## Character-list string primitives -/

/-- Python `str.strip()` / JS `trim()`: drop whitespace at both ends. -/
def trimL (cs : List Char) : List Char :=
  ((cs.dropWhile Char.isWhitespace).reverse.dropWhile Char.isWhitespace).reverse

/-- Python `str.strip()` on a `String`. -/
def pyStrip (s : String) : String := String.mk (trimL s.data)

/-- Python `str.replace(c, "")` for a one-character pattern: removes every
occurrence of the character. -/
def stripCh (a : Char) (cs : List Char) : List Char := cs.filter (fun c => c ≠ a)

/-- Python `str.replace(p, "")` for a two-character pattern `p = a,b`:
left-to-right removal of non-overlapping occurrences. -/
def stripPat2 (a b : Char) : List Char → List Char
  | [] => []
  | [c] => [c]
  | c :: d :: rest =>
    if c = a ∧ d = b then stripPat2 a b rest
    else c :: stripPat2 a b (d :: rest)

/-- JS `text.split(sep)` for a one-character separator (same segment semantics
as Python `str.split(sep)` with a single-character separator). -/
def splitCh (sep : Char) : List Char → List (List Char)
  | [] => [[]]
  | c :: rest =>
    let r := splitCh sep rest
    if c = sep then [] :: r
    else
      match r with
      | h :: t => (c :: h) :: t
      | [] => [[c]]

/-- Lower-casing, as Python `str.lower()` / JS `toLowerCase()`. -/
def lowerStr (s : String) : String := String.mk (s.data.map Char.toLower)

/-- `pat` occurs at the head of `cs`. -/
def leadsWith : List Char → List Char → Bool
  | [], _ => true
  | _ :: _, [] => false
  | a :: as, b :: bs => a = b && leadsWith as bs

/-- `pat` occurs somewhere inside `cs` (Python `pat in s`, JS `includes`). -/
def occursInL (pat : List Char) : List Char → Bool
  | [] => pat.isEmpty
  | c :: rest => leadsWith pat (c :: rest) || occursInL pat rest

/-- Python `pat in s` on `String`s. -/
def occursIn (pat s : String) : Bool := occursInL pat.data s.data

/-! ## Python numeric literal parsing (`float(...)`, `int(...)`)

`float` and `int` raise `ValueError` on malformed text; the embedding returns
`none` there.  PEP 515 underscores (single `_` strictly between digits) are
accepted.  Unicode digit forms are not modelled. -/

/-- Continuation of a digit run: digits, with a single `_` allowed only
between digits.  Returns the collected digits and the unconsumed rest;
`none` when an `_` is misplaced. -/
def digRunCont : List Char → Option (List Char × List Char)
  | [] => some ([], [])
  | '_' :: rest =>
    match rest with
    | c :: rest' =>
      if c.isDigit then (digRunCont rest').map (fun p => (c :: p.1, p.2)) else none
    | [] => none
  | c :: rest =>
    if c.isDigit then (digRunCont rest).map (fun p => (c :: p.1, p.2))
    else some ([], c :: rest)

/-- A nonempty digit run (with PEP 515 underscores). -/
def digRun : List Char → Option (List Char × List Char)
  | [] => none
  | c :: rest =>
    if c.isDigit then (digRunCont rest).map (fun p => (c :: p.1, p.2)) else none

/-- Numeric value of a list of decimal digits. -/
def digitsVal (ds : List Char) : ℕ :=
  ds.foldl (fun n c => 10 * n + (c.toNat - '0'.toNat)) 0

/-- Optional leading sign; `true` means negative. -/
def parseSign : List Char → Bool × List Char
  | '+' :: r => (false, r)
  | '-' :: r => (true, r)
  | r => (false, r)

/-- Mantissa of a Python float literal: `digits [. digits] | . digits`,
also allowing a bare trailing dot (`"1."`).  Returns integer digits,
fractional digits and the rest. -/
def parseMantissa (cs : List Char) : Option (List Char × List Char × List Char) :=
  match cs with
  | '.' :: r => (digRun r).map (fun p => ([], p.1, p.2))
  | _ =>
    match digRun cs with
    | none => none
    | some (I, rest) =>
      match rest with
      | '.' :: r2 =>
        match r2 with
        | [] => some (I, [], [])
        | c :: _ =>
          if c.isDigit then (digRun r2).map (fun p => (I, p.1, p.2))
          else some (I, [], r2)
      | _ => some (I, [], rest)

/-- Exponent part `e[+-]digits` of a Python float literal. -/
def parseExp : List Char → Option (ℤ × List Char)
  | [] => none
  | c :: rest =>
    if c = 'e' ∨ c = 'E' then
      let sr := parseSign rest
      (digRun sr.2).map (fun p =>
        ((if sr.1 then -(digitsVal p.1 : ℤ) else (digitsVal p.1 : ℤ)), p.2))
    else none

/-- Syntactic form of a finite Python float literal: sign, mantissa digits
read as a natural, number of fractional digits, exponent. -/
structure PyDec where
  neg : Bool
  mant : ℕ
  shift : ℕ
  exp : ℤ
deriving DecidableEq

/-- Result of Python `float(...)`. -/
inductive PyFloat where
  | finite (d : PyDec)
  | inf
  | ninf
  | nan
deriving DecidableEq

/-- Rational value denoted by a finite float literal (the IEEE-754 rounding
Python applies afterwards is not modelled; the inputs in the claims are
exactly representable). -/
def PyDec.val (d : PyDec) : ℚ :=
  let base : ℚ := (d.mant : ℚ) / 10 ^ d.shift
  let scaled : ℚ := if 0 ≤ d.exp then base * 10 ^ d.exp.toNat else base / 10 ^ (-d.exp).toNat
  if d.neg then -scaled else scaled

/-- Python `float(s)` on the characters after the sign. -/
def pyFloatBody (neg : Bool) (r : List Char) : Option PyFloat :=
  let low := r.map Char.toLower
  if low = "inf".data ∨ low = "infinity".data then
    some (if neg then PyFloat.ninf else PyFloat.inf)
  else if low = "nan".data then some PyFloat.nan
  else
    match parseMantissa r with
    | none => none
    | some (I, F, rest) =>
      let eRes : Option (ℤ × List Char) :=
        match rest with
        | [] => some (0, [])
        | _ => parseExp rest
      match eRes with
      | none => none
      | some (e, rest2) =>
        if rest2 = [] then
          some (PyFloat.finite ⟨neg, digitsVal (I ++ F), F.length, e⟩)
        else none

/-- Python `float(s)`: strips surrounding whitespace, optional sign, then a
float literal; `none` models `ValueError`. -/
def pyFloat? (s : String) : Option PyFloat :=
  let sr := parseSign (trimL s.data)
  pyFloatBody sr.1 sr.2

/-- Python `int(s)` (base 10): strips whitespace, optional sign, digit run;
`none` models `ValueError`. -/
def pyInt? (s : String) : Option ℤ :=
  let sr := parseSign (trimL s.data)
  match digRun sr.2 with
  | some (ds, []) => some (if sr.1 then -(digitsVal ds : ℤ) else (digitsVal ds : ℤ))
  | _ => none

/-! ## Normalizer (`endpoints.py` lines 91-98 and 119-123) -/

/-- `str(p).replace("$", "").replace(",", "").strip()` (endpoints.py:95). -/
def cleanPriceText (s : String) : String :=
  String.mk (trimL (stripCh ',' (stripCh '$' s.data)))

/-- The per-item price normalization (endpoints.py:92-98): guarded by the
truthiness of the raw field, then `float(price_str) if price_str else None`,
with `ValueError` resolved to `None`. -/
def parsePriceStr (s : String) : Option PyFloat :=
  if s = "" then none
  else
    let c := cleanPriceText s
    if c = "" then none else pyFloat? c

/-- Price of a `dict.get("price")` result: `None`/missing stays absent. -/
def parsePriceField (p : Option String) : Option PyFloat :=
  match p with
  | none => none
  | some s => parsePriceStr s

/-- `str(m).replace(",", "").replace("mi", "").strip()` (endpoints.py:121). -/
def cleanMileageText (s : String) : String :=
  String.mk (trimL (stripPat2 'm' 'i' (stripCh ',' s.data)))

/-- The mileage normalization (endpoints.py:119-123): `int(...)` on the
cleaned text, `ValueError` resolved by leaving the field unset. -/
def parseMileageStr (s : String) : Option ℤ :=
  pyInt? (cleanMileageText s)

/-- Rational value of a successfully parsed price. -/
def parsePriceVal (s : String) : Option ℚ :=
  match parsePriceStr s with
  | some (PyFloat.finite d) => some d.val
  | _ => none

/-! ## Field extractor, list mode (`scraper_service.py` lines 30-96)

The DOM cannot be embedded; a list document is modelled by what each of the
three structural strategies observes: the queried elements with the fields the
JS reads from them.  The chain logic, the per-element guards and the URL
dedup are translated from the `page.evaluate` script. -/

/-- JS `||` on strings: the empty string is falsy. -/
def jsOr (a b : String) : String := if a = "" then b else a

/-- An anchor element as the script reads it: the resolved `href` property
(the empty string when the attribute is absent), `textContent`, and the
`title` attribute. -/
structure Anchor where
  href : String
  text : String
  titleAttr : Option String
deriving DecidableEq

/-- A `li.cl-search-result, li[data-pid]` element: its detail anchor (if the
inner query matches) and the text of its `.price` child (if present). -/
structure ModernItem where
  anchor : Option Anchor
  priceEl : Option String
deriving DecidableEq

/-- A `.result-row` element: its `.result-title` anchor and `.result-price`
child text. -/
structure RowItem where
  anchor : Option Anchor
  priceEl : Option String
deriving DecidableEq

/-- An anchor from the generic whole-document scan: raw `href` attribute,
`textContent`, `title` attribute, and (when `closest` finds a list-item
ancestor) that ancestor price-child text. -/
structure LinkNode where
  hrefAttr : Option String
  text : String
  titleAttr : Option String
  parent : Option (Option String)
deriving DecidableEq

/-- A candidate record as the scraper pushes it (`{url, title, price}`), also
the per-item dict the orchestrator consumes (`is_free` is read with a default
at `endpoints.py:105` but never produced by this scraper). -/
structure Item where
  url : String
  title : Option String := none
  price : Option String := none
  is_free : Option Bool := none
deriving DecidableEq

/-- `s.endsWith(pat)`. -/
def hasEnding (s pat : String) : Bool := leadsWith pat.data.reverse s.data.reverse

/-- Characters of `scheme://host`, dropping everything from the first `/`
after the authority. -/
def originAux : List Char → List Char
  | [] => []
  | c :: r => if c = '/' then [] else c :: originAux r

/-- Origin part of an absolute URL. -/
def originL : List Char → List Char
  | [] => []
  | c :: rest =>
    if leadsWith "://".data (c :: rest) then "://".data ++ originAux (rest.drop 2)
    else c :: originL rest

/-- Characters of a URL up to and including the last `/`. -/
def dirL (cs : List Char) : List Char := (cs.reverse.dropWhile (fun c => c ≠ '/')).reverse

/-- Models `new URL(href, base).href` for the href shapes this scan meets:
root-relative hrefs join the origin of `base`, other relative hrefs join the
directory of `base`.  (Absolute `http...` hrefs never reach this function;
full WHATWG resolution is not modelled.) -/
def resolveUrl (base href : String) : String :=
  if leadsWith "/".data href.data then String.mk (originL base.data) ++ href
  else String.mk (dirL base.data) ++ href

/-- Strategy 1: modern markup (`li.cl-search-result, li[data-pid]`). -/
def strategy1 (items : List ModernItem) : List Item :=
  items.filterMap (fun it =>
    match it.anchor with
    | some a =>
      if a.href ≠ "" then
        some { url := a.href,
               title := some (jsOr (pyStrip a.text) (jsOr (a.titleAttr.getD "") "Untitled")),
               price := it.priceEl.map pyStrip }
      else none
    | none => none)

/-- Strategy 2: legacy `.result-row` markup. -/
def strategy2 (rows : List RowItem) : List Item :=
  rows.filterMap (fun r =>
    match r.anchor with
    | some a =>
      if a.href ≠ "" then
        some { url := a.href,
               title := some (jsOr (pyStrip a.text) "Untitled"),
               price := r.priceEl.map pyStrip }
      else none
    | none => none)

/-- Strategy 3: generic anchor scan with `closest` ancestor context. -/
def strategy3 (base : String) (links : List LinkNode) : List Item :=
  links.filterMap (fun ln =>
    match ln.hrefAttr with
    | some href =>
      if href ≠ "" ∧ (occursIn "/d/" href ∨ hasEnding href ".html") then
        match ln.parent with
        | some pPrice =>
          some { url := if leadsWith "http".data href.data then href else resolveUrl base href,
                 title := some (jsOr (pyStrip ln.text) (jsOr (ln.titleAttr.getD "") "Untitled")),
                 price := pPrice.map pyStrip }
        | none => none
      else none
    | none => none)

/-- URL dedup over the winning strategy output (JS `Set`, first seen wins). -/
def dedupAux (seen : List String) : List Item → List Item
  | [] => []
  | c :: rest =>
    if seen.contains c.url then dedupAux seen rest
    else c :: dedupAux (c.url :: seen) rest

/-- `Remove duplicates based on URL` block of the evaluate script. -/
def dedupByUrl (l : List Item) : List Item := dedupAux [] l

/-- A rendered category page, observed through the three strategy queries. -/
structure ListDoc where
  base : String
  modernItems : List ModernItem
  rowItems : List RowItem
  allLinks : List LinkNode

/-- The evaluate script: strategy 1, then strategy 2 `if (data.length === 0)`,
then strategy 3 `if (data.length === 0)`, then URL dedup. -/
def extractList (doc : ListDoc) : List Item :=
  let data := strategy1 doc.modernItems
  let data := if data.isEmpty then strategy2 doc.rowItems else data
  let data := if data.isEmpty then strategy3 doc.base doc.allLinks else data
  dedupByUrl data

/-- `url.split('#')[0]` (scraper_service.py:13): everything before the first
`#`. -/
def clean_url (url : String) : String :=
  String.mk (url.data.takeWhile (fun c => c ≠ '#'))

/-- The URL `scrape_category` navigates to: the submitted category URL with
its fragment stripped (scraper_service.py:13 and 22). -/
def categoryFetchTarget (url : String) : String := clean_url url

/-- Outcome of the browser work inside `scrape_category`: an exception before
the inner `try` (browser launch), an exception inside it (navigation or
evaluation, caught at line 107), or a rendered page. -/
inductive CategoryFetch where
  | launchFail (msg : String)
  | gotoFail (msg : String)
  | page (doc : ListDoc)

/-- What `scrape_category` produces: the candidate list plus the
non-info log lines it emitted. -/
structure CatResult where
  listings : List Item
  logs : List String
deriving DecidableEq

/-- `scrape_category` (scraper_service.py:8-113): a launch-level exception
propagates (`Except.error`); an exception inside the inner `try` is caught,
logged and turned into an empty list; otherwise the evaluate script runs and
a zero-candidate result logs its own distinct warning. -/
def scrape_category : CategoryFetch → Except String CatResult
  | CategoryFetch.launchFail msg => Except.error msg
  | CategoryFetch.gotoFail msg => Except.ok ⟨[], ["Error scraping: " ++ msg]⟩
  | CategoryFetch.page doc =>
    let cs := extractList doc
    Except.ok ⟨cs, if cs.isEmpty then ["No listings found. Page title: logged"] else []⟩

/-! ## Field extractor, detail mode (`scraper_service.py` lines 115-192) -/

/-- A rendered detail page, observed through the five isolated extraction
attempts: `none` means the locator timed out or raised for that field.
`attrSpans` is the `innerText` of each `.attrgroup span` (or `none` when the
evaluate call raised). -/
structure DetailPage where
  titleRes : Option String
  bodyRes : Option String
  priceRes : Option String
  priceAltRes : Option String
  locRes : Option String
  locAltRes : Option String
  attrSpans : Option (List String)
deriving DecidableEq

/-- Outcome of `page.goto` for a detail page. -/
inductive DetailFetch where
  | gotoFail (msg : String)
  | page (p : DetailPage)

/-- The Python `details` dict: insertion-ordered keys, values may be `None`. -/
abbrev Dict := List (String × Option String)

/-- Python `d[k] = v`: replace in place, else append. -/
def dictSet (d : Dict) (k : String) (v : Option String) : Dict :=
  match d with
  | [] => [(k, v)]
  | (k', v') :: rest => if k' = k then (k', v) :: rest else (k', v') :: dictSet rest k v

/-- Python `k in d` lookup, keeping the stored value (possibly `None`). -/
def dictLookup : Dict → String → Option (Option String)
  | [], _ => none
  | (k', v') :: rest, k => if k' = k then some v' else dictLookup rest k

/-- Python `d.get(k)`: missing key and a stored `None` both come back empty. -/
def dictGet (d : Dict) (k : String) : Option String := (dictLookup d k).bind id

/-- JS `obj[k] = v` on the attribute object. -/
def alSet (l : List (String × String)) (k v : String) : List (String × String) :=
  match l with
  | [] => [(k, v)]
  | (k', v') :: rest => if k' = k then (k', v) :: rest else (k', v') :: alSet rest k v

/-- JS `obj[k]` on the attribute object. -/
def alLookup : List (String × String) → String → Option String
  | [], _ => none
  | (k', v') :: rest, k => if k' = k then some v' else alLookup rest k

/-- One `.attrgroup span`: split on `:`; exactly one colon stores
`lowercased-trimmed key -> trimmed value`; anything else accumulates into the
`tag` entry with a comma separator (JS truthiness on the existing value). -/
def jsAttrStep (res : List (String × String)) (text : String) : List (String × String) :=
  let parts := (splitCh ':' text.data).map String.mk
  if parts.length = 2 then
    alSet res (lowerStr (pyStrip (parts.getD 0 ""))) (pyStrip (parts.getD 1 ""))
  else
    match alLookup res "tag" with
    | some t => if t = "" then alSet res "tag" text else alSet res "tag" (t ++ "," ++ text)
    | none => alSet res "tag" text

/-- The `forEach` loop of the attribute-extraction evaluate script
(scraper_service.py:172-180). -/
def buildAttrsAux : List (String × String) → List String → List (String × String)
  | res, [] => res
  | res, t :: rest => buildAttrsAux (jsAttrStep res t) rest

/-- The attribute-extraction evaluate script (scraper_service.py:169-182). -/
def buildAttrs (spans : List String) : List (String × String) :=
  buildAttrsAux [] spans

/-- Python `details.update(attrs)`. -/
def dictUpdate : Dict → List (String × String) → Dict
  | d, [] => d
  | d, kv :: rest => dictUpdate (dictSet d kv.1 (some kv.2)) rest

/-- The keys of an attribute object. -/
def keysOf : List (String × String) → List String
  | [] => []
  | kv :: rest => kv.1 :: keysOf rest

/-- The attribute map of the page does not define key `k` (so the merge in
`scrape_listing_details` leaves that core field alone). -/
def attrsAvoidB (p : DetailPage) (k : String) : Bool :=
  match p.attrSpans with
  | none => true
  | some spans => (alLookup (buildAttrs spans) k).isNone

/-- The four isolated core-field extractions (scraper_service.py:128-165):
title defaults to `"Unknown"`, description to `""`, price and location fall
back to an alternative selector and then to `None`. -/
def detailsCore (p : DetailPage) : Dict :=
  let d : Dict := []
  let d := dictSet d "title" (some (p.titleRes.getD "Unknown"))
  let d := dictSet d "description" (some (p.bodyRes.getD ""))
  let d := dictSet d "price" (match p.priceRes with | some s => some s | none => p.priceAltRes)
  let d := dictSet d "location" (match p.locRes with | some s => some s | none => p.locAltRes)
  d

/-- `scrape_listing_details` (scraper_service.py:115-192): a navigation
failure is caught and yields the empty dict; otherwise the core fields are
extracted in isolation and the attribute map is merged over them. -/
def scrape_listing_details : DetailFetch → Dict
  | DetailFetch.gotoFail _ => []
  | DetailFetch.page p =>
    match p.attrSpans with
    | some spans => dictUpdate (detailsCore p) (buildAttrs spans)
    | none => detailsCore p

/-! ## Enrichment pipeline (`ai_service.py`) -/

/-- `AnalysisResult` (ai_service.py:24-31). -/
structure AnalysisResult where
  is_arbitrage_opportunity : Bool
  profit_potential : ℚ
  reasoning : String
  suggested_platform : String
  category : String := ""
  market_demand : String := ""
  recommended_price : ℚ := 0
deriving DecidableEq

/-- `AdQualityScore` (ai_service.py:33-39). -/
structure AdQualityScore where
  overall_score : ℚ
  has_good_title : Bool
  has_detailed_description : Bool
  has_photos : Bool
  pricing_appropriate : Bool
  suggestions : String
deriving DecidableEq

/-- `MarketResearch` (ai_service.py:41-47). -/
structure MarketResearch where
  competition_level : String
  average_market_price : ℚ
  price_competitiveness : String
  demand_level : String
  best_selling_season : String := ""
  top_profitable_categories : List String := []
deriving DecidableEq

/-- The provider the startup logic resolved to. -/
inductive Provider where
  | openai
  | gemini
deriving DecidableEq

/-- Capability availability, fixed at process start (`AIService.__init__`);
`api_key_configured` also covers `self.llm is None` since both are set
together. -/
structure AIConfig where
  api_key_configured : Bool
  provider : Option Provider
deriving DecidableEq

/-- Outcome of `chain.ainvoke` — a parsed result or a raised exception with
its string rendering. -/
inductive ChainOutcome where
  | ok (r : AnalysisResult)
  | raised (msg : String)

/-- The unconfigured-credentials reasoning text (ai_service.py:124). -/
def keyNotConfiguredMsg : String :=
  "AI API key not configured. Please set GEMINI_API_KEY (recommended, free tier available) or OPENAI_API_KEY in .env file. Get Gemini key at https://makersuite.google.com/app/apikey or OpenAI key at https://platform.openai.com/account/api-keys"

/-- `"Gemini" if self.provider == "gemini" else "OpenAI"`. -/
def providerName : Option Provider → String
  | some Provider.gemini => "Gemini"
  | _ => "OpenAI"

/-- `self.provider or "unknown"`. -/
def providerTag : Option Provider → String
  | some Provider.openai => "openai"
  | some Provider.gemini => "gemini"
  | none => "unknown"

/-- The error-message classification of the `except` block
(ai_service.py:182-192). -/
def classifyAiError (p : Option Provider) (msg : String) : String :=
  if occursIn "401" msg || occursIn "invalid_api_key" (lowerStr msg)
      || occursIn "api_key" (lowerStr msg) then
    "Invalid " ++ providerName p ++ " API key. Please check your API key in .env file."
  else if occursIn "429" msg || occursIn "rate_limit" (lowerStr msg) then
    providerName p ++ " API rate limit exceeded. Please try again later."
  else
    "AI analysis error (" ++ providerTag p ++ "): " ++ msg

/-- `AIService.analyze_arbitrage` (ai_service.py:115-200): unconfigured
credentials and every raising call resolve to a degraded `AnalysisResult`;
the function itself never raises. -/
def analyze_arbitrage (cfg : AIConfig) (outcome : ChainOutcome) : AnalysisResult :=
  if ¬ cfg.api_key_configured then
    { is_arbitrage_opportunity := false, profit_potential := 0,
      reasoning := keyNotConfiguredMsg, suggested_platform := "None" }
  else
    match outcome with
    | ChainOutcome.ok r => r
    | ChainOutcome.raised msg =>
      { is_arbitrage_opportunity := false, profit_potential := 0,
        reasoning := classifyAiError cfg.provider msg, suggested_platform := "None" }

/-! ## Data model (`models.py`) and the orchestrator (`endpoints.py`)

`models.py` maps fewer columns than `endpoints.py` writes.  The inventories
below record, verbatim, which names each side uses; the store dynamics then
model the writes as the orchestrator intends them (see the C8 theorems for
the mismatch). -/

/-- The mapped columns of `class Listing` (models.py:14-37), in declaration
order. -/
def listingColumns : List String :=
  ["id", "title", "url", "price", "location", "description", "date_posted",
   "date_scraped", "source", "category", "mileage", "engine_displacement",
   "analysis_json", "is_arbitrage_opportunity", "profit_potential"]

/-- The keyword arguments of the `Listing(...)` construction
(endpoints.py:100-105). -/
def listingCtorKwargs : List String :=
  ["title", "url", "price", "source", "is_free_item"]

/-- The `listing.<field> = ...` targets of the enrichment stage
(endpoints.py:135-158). -/
def enrichmentWriteFields : List String :=
  ["is_arbitrage_opportunity", "profit_potential", "analysis_json", "category",
   "market_demand", "recommended_price", "ad_quality_score", "ad_quality_json",
   "market_research_json"]

/-- Modelled from the spec: the field list section 3 assigns to the
persistent `Listing` entity. -/
def specListingFields : List String :=
  ["title", "price", "location", "description", "date_posted", "date_scraped",
   "source", "category", "mileage", "is_free_item", "is_arbitrage_opportunity",
   "profit_potential", "analysis_json", "ad_quality_json",
   "market_research_json", "ad_quality_score"]

/-- A persisted listing row as the orchestrator writes it.  Fields marked
`unmapped` are assigned by `endpoints.py` but have no column in `models.py`
(the C8 theorems record this); the dynamics here follow the write-through the
orchestrator intends. -/
structure StoredListing where
  title : String
  url : String
  price : Option PyFloat
  location : Option String := none
  description : Option String := none
  source : String
  category : Option String := none
  mileage : Option ℤ := none
  is_free_item : Bool := false                               -- unmapped
  analysis_json : Option AnalysisResult := none
  is_arbitrage_opportunity : Bool := false
  profit_potential : Option ℚ := none
  market_demand : Option String := none                      -- unmapped
  recommended_price : Option ℚ := none                       -- unmapped
  ad_quality_score : Option ℚ := none                        -- unmapped
  ad_quality_json : Option AdQualityScore := none            -- unmapped
  market_research_json : Option MarketResearch := none       -- unmapped
deriving DecidableEq

/-- The committed listings table, in insertion order. -/
abbrev Store := List StoredListing

/-- `db.query(Listing).filter(Listing.url == u).first()`. -/
def findByUrl : Store → String → Option StoredListing
  | [], _ => none
  | l :: rest, u => if l.url = u then some l else findByUrl rest u

/-- `db.add` + `db.commit` of a new row. -/
def insertListing (db : Store) (l : StoredListing) : Store := db ++ [l]

/-- Committing mutations of the row keyed by `u`. -/
def updateByUrl (db : Store) (u : String) (l : StoredListing) : Store :=
  db.map (fun x => if x.url = u then l else x)

/-- The urls of the stored listings. -/
def urlsOf (db : Store) : List String := db.map (fun l => l.url)

/-- `Listing(title=..., url=..., price=..., source=..., is_free_item=...)`
(endpoints.py:100-105, with the price pre-parsed at lines 92-98). -/
def mkListing (it : Item) : StoredListing :=
  { title := it.title.getD "Untitled",
    url := it.url,
    price := parsePriceField it.price,
    source := "craigslist",
    is_free_item := it.is_free.getD false }

/-- The detail-update block (endpoints.py:114-123): each field is written
only when the fetched dict holds a truthy value; a mileage parse error leaves
the field untouched. -/
def applyDetails (l : StoredListing) (d : Dict) : StoredListing :=
  { l with
    description :=
      match dictGet d "description" with
      | some s => if s ≠ "" then some s else l.description
      | none => l.description,
    location :=
      match dictGet d "location" with
      | some s => if s ≠ "" then some s else l.location
      | none => l.location,
    mileage :=
      match dictGet d "mileage" with
      | some s =>
        if s ≠ "" then
          match parseMileageStr s with
          | some n => some n
          | none => l.mileage
        else l.mileage
      | none => l.mileage }

/-- The arbitrage-analysis writes (endpoints.py:135-145); the `hasattr`
guards always hold because the pydantic model declares the fields with
defaults. -/
def applyAnalysis (l : StoredListing) (a : AnalysisResult) : StoredListing :=
  { l with
    is_arbitrage_opportunity := a.is_arbitrage_opportunity,
    profit_potential := some a.profit_potential,
    analysis_json := some a,
    category := some a.category,
    market_demand := some a.market_demand,
    recommended_price := some a.recommended_price }

/-- The ad-quality writes (endpoints.py:149-151). -/
def applyAdQuality (l : StoredListing) (q : AdQualityScore) : StoredListing :=
  { l with ad_quality_score := some q.overall_score, ad_quality_json := some q }

/-- The market-research write (endpoints.py:157-158). -/
def applyMarketResearch (l : StoredListing) (m : MarketResearch) : StoredListing :=
  { l with market_research_json := some m }

/-- The external behaviour one loop iteration can meet, keyed by the item
URL: an exception in the outer region (the dedup query up to the base-row
commit), the outcome of the detail fetch, an exception inside the AI `try`
(modelled at the analysis call, before any enrichment write is committed),
the `chain.ainvoke` outcome, and the two optional-analysis outcomes (`none`
models their own `except` paths). -/
structure ItemEnv where
  queryRaises : Option String := none
  detailOutcome : Except String Dict := Except.ok []
  aiBlockRaises : Option String := none
  analysisOutcome : ChainOutcome := ChainOutcome.raised "unreachable"
  adOutcome : Option AdQualityScore := none
  mrOutcome : Option MarketResearch := none

/-- The body of the AI-analysis `try` (endpoints.py:129-165) applied to the
detail-updated row: the required arbitrage analysis, then the two optional
analyses, each skipped on its own `except` path (`none`). -/
def applyEnrich (cfg : AIConfig) (env : ItemEnv) (l1 : StoredListing) : StoredListing :=
  let a := analyze_arbitrage cfg env.analysisOutcome
  let l2 := applyAnalysis l1 a
  let l3 := match env.adOutcome with
            | some q => applyAdQuality l2 q
            | none => l2
  match env.mrOutcome with
  | some m => applyMarketResearch l3 m
  | none => l3

/-- Whether an `Except` value is a success. -/
def exceptOk : Except String Dict → Bool
  | Except.ok _ => true
  | Except.error _ => false

/-- An environment under which an item completes its detail fetch: no
exception in the outer region and a successful detail fetch (nothing is
assumed about the enrichment stage). -/
def goodEnvB (e : ItemEnv) : Bool :=
  e.queryRaises.isNone && exceptOk e.detailOutcome

/-- One iteration of the `for item in listings` loop (endpoints.py:85-181):
dedup gate, base-row insert, detail fetch and update, then the AI block whose
failures are only logged; `listings_added` is incremented by the `else` of
the detail `try`.  Returns the committed store, whether `listings_added` was
incremented, and the error strings appended. -/
def processItem (cfg : AIConfig) (db : Store) (it : Item) (env : ItemEnv) :
    Store × Bool × List String :=
  match env.queryRaises with
  | some msg => (db, false, ["Error processing listing " ++ it.url ++ ": " ++ msg])
  | none =>
    if (findByUrl db it.url).isSome then (db, false, [])
    else
      let base := mkListing it
      let db1 := insertListing db base
      match env.detailOutcome with
      | Except.error msg =>
        (db1, false, ["Failed to scrape details for " ++ it.url ++ ": " ++ msg])
      | Except.ok details =>
        let l1 := applyDetails base details
        let db2 := updateByUrl db1 it.url l1
        let db3 :=
          match env.aiBlockRaises with
          | some _ => db2
          | none => updateByUrl db2 it.url (applyEnrich cfg env l1)
        (db3, true, [])

/-- Accumulated batch state: committed store, `listings_processed`,
`listings_added`, appended error strings. -/
structure BatchAcc where
  store : Store
  processed : ℕ
  added : ℕ
  errors : List String
deriving DecidableEq

/-- The whole `for item in listings` loop. -/
def runItems (cfg : AIConfig) (env : String → ItemEnv) :
    Store → List Item → BatchAcc
  | db, [] => ⟨db, 0, 0, []⟩
  | db, it :: rest =>
    let r := processItem cfg db it (env it.url)
    let acc := runItems cfg env r.1 rest
    ⟨acc.store, acc.processed + 1, acc.added + (if r.2.1 then 1 else 0),
      r.2.2 ++ acc.errors⟩

/-- Batch outcome of `run_scrape_job`: final store, counters, error list and
the warning log lines relevant to the empty-result policy. -/
structure JobResult where
  store : Store
  processed : ℕ
  added : ℕ
  errors : List String
  logs : List String
deriving DecidableEq

/-- `run_scrape_job` (endpoints.py:62-191): a `scrape_category` exception is
the only fatal path (`"Fatal error: ..."`); an empty candidate list returns
early with the `No listings found` warning and no error; otherwise the items
run sequentially under per-item isolation. -/
def run_scrape_job (cfg : AIConfig) (fetch : CategoryFetch)
    (env : String → ItemEnv) (db : Store) : JobResult :=
  match scrape_category fetch with
  | Except.error msg =>
    { store := db, processed := 0, added := 0,
      errors := ["Fatal error: " ++ msg], logs := [] }
  | Except.ok cat =>
    if cat.listings.isEmpty then
      { store := db, processed := 0, added := 0, errors := [],
        logs := cat.logs ++ ["No listings found for URL"] }
    else
      let acc := runItems cfg env db cat.listings
      { store := acc.store, processed := acc.processed, added := acc.added,
        errors := acc.errors, logs := cat.logs }

/-! ## General helper lemmas -/

theorem strDataAppend (a b : String) : (a ++ b).data = a.data ++ b.data := rfl

theorem strEqOfData {a b : String} (h : a.data = b.data) : a = b := by
  cases a
  cases b
  cases h
  rfl

theorem strNeEmptyOfData {a : String} (h : a.data ≠ []) : a ≠ "" := by
  intro e
  exact h (by rw [e])

theorem appendNeEmpty (a b : String) (ha : a.data ≠ []) : a ++ b ≠ "" := by
  apply strNeEmptyOfData
  rw [strDataAppend]
  intro hcon
  exact ha (List.append_eq_nil.mp hcon).1

theorem classifyAiError_ne_empty (p : Option Provider) (msg : String) :
    classifyAiError p msg ≠ "" := by
  unfold classifyAiError
  split
  · rcases p with _ | pr
    · decide
    · cases pr <;> decide
  · split
    · rcases p with _ | pr
      · decide
      · cases pr <;> decide
    · apply appendNeEmpty
      rw [strDataAppend, strDataAppend]
      intro hcon
      have h1 := (List.append_eq_nil.mp hcon).1
      have h2 := (List.append_eq_nil.mp h1).1
      exact absurd h2 (by decide)

/-! ## Claim theorems: normalizer and enrichment -/

/-- Claim C4: the price normalization (strip the dollar sign and commas,
trim, parse as a float) and the mileage normalization (strip commas and the
`mi` suffix, trim, parse as an integer) are total into `Option`: the listed
inputs evaluate as the claim states, and an empty cleaned string yields
`none` instead of an error. -/
theorem normalizer_total :
    parsePriceVal "$1,250.00" = some 1250 ∧
    parsePriceStr "invalid" = none ∧
    parseMileageStr "45,000 mi" = some 45000 ∧
    (∀ s, cleanPriceText s = "" → parsePriceStr s = none) ∧
    (∀ s, cleanMileageText s = "" → parseMileageStr s = none) := by
  refine ⟨?_, by decide, by decide, ?_, ?_⟩
  · norm_num [parsePriceVal,
      show parsePriceStr "$1,250.00" = some (PyFloat.finite ⟨false, 125000, 2, 0⟩) from by decide,
      PyDec.val]
  · intro s h
    simp [parsePriceStr, h]
  · intro s h
    rw [parseMileageStr, h]
    decide

/-- Witness for C4 at a concrete input: a string that cleans to empty
parses to `none`. -/
theorem normalizer_total_witness : parsePriceStr "$ ," = none :=
  normalizer_total.2.2.2.1 "$ ," (by decide)

/-- Claim C3: `analyze_arbitrage` is total; unconfigured credentials and a
raising capability call both resolve to a degraded result with
`is_arbitrage_opportunity = false`, `profit_potential = 0` and a non-empty
reasoning, and the reasonings of the four failure causes (unconfigured,
authentication, rate limit, other) are pairwise distinct. -/
theorem analyze_arbitrage_degrades (cfg : AIConfig) (outcome : ChainOutcome) :
    (cfg.api_key_configured = false →
      analyze_arbitrage cfg outcome
        = { is_arbitrage_opportunity := false, profit_potential := 0,
            reasoning := keyNotConfiguredMsg, suggested_platform := "None" }) ∧
    (∀ msg, cfg.api_key_configured = true → outcome = ChainOutcome.raised msg →
      analyze_arbitrage cfg outcome
        = { is_arbitrage_opportunity := false, profit_potential := 0,
            reasoning := classifyAiError cfg.provider msg,
            suggested_platform := "None" }) ∧
    ((cfg.api_key_configured = false ∨ ∃ m, outcome = ChainOutcome.raised m) →
      (analyze_arbitrage cfg outcome).is_arbitrage_opportunity = false ∧
      (analyze_arbitrage cfg outcome).profit_potential = 0 ∧
      (analyze_arbitrage cfg outcome).reasoning ≠ "") ∧
    ([keyNotConfiguredMsg, classifyAiError cfg.provider "Error code: 401",
      classifyAiError cfg.provider "Error code: 429",
      classifyAiError cfg.provider "boom"]).Nodup := by
  refine ⟨?_, ?_, ?_, ?_⟩
  · intro h
    simp [analyze_arbitrage, h]
  · intro msg hc ho
    subst ho
    simp [analyze_arbitrage, hc]
  · intro hfail
    rcases hfail with h | ⟨m, ho⟩
    · simp [analyze_arbitrage, h]
      decide
    · subst ho
      by_cases hc : cfg.api_key_configured
      · simp [analyze_arbitrage, hc]
        exact classifyAiError_ne_empty cfg.provider m
      · simp [analyze_arbitrage, hc]
        decide
  · rcases hp : cfg.provider with _ | pr
    · decide
    · cases pr <;> decide

/-- Witness for C3 at a concrete input: with no provider configured, the
result is the degraded record with the unconfigured-credentials reasoning. -/
theorem analyze_arbitrage_degrades_witness :
    analyze_arbitrage ⟨false, none⟩ (ChainOutcome.raised "boom")
      = { is_arbitrage_opportunity := false, profit_potential := 0,
          reasoning := keyNotConfiguredMsg, suggested_platform := "None" } :=
  (analyze_arbitrage_degrades ⟨false, none⟩ (ChainOutcome.raised "boom")).1 rfl

/-! ## Claim theorems: list-mode extraction -/

/-- Claim C5: the list-mode strategies run as an ordered fallback chain —
the first strategy with a nonempty yield wins and later strategies
contribute nothing; only when every earlier strategy yields zero candidates
does a later one run. -/
theorem extract_fallback_chain (doc : ListDoc) :
    (strategy1 doc.modernItems ≠ [] →
      extractList doc = dedupByUrl (strategy1 doc.modernItems)) ∧
    (strategy1 doc.modernItems = [] → strategy2 doc.rowItems ≠ [] →
      extractList doc = dedupByUrl (strategy2 doc.rowItems)) ∧
    (strategy1 doc.modernItems = [] → strategy2 doc.rowItems = [] →
      extractList doc = dedupByUrl (strategy3 doc.base doc.allLinks)) := by
  refine ⟨?_, ?_, ?_⟩
  · intro h1
    cases hs : strategy1 doc.modernItems with
    | nil => exact absurd hs h1
    | cons a t => simp [extractList, hs]
  · intro h1 h2
    cases hs : strategy2 doc.rowItems with
    | nil => exact absurd hs h2
    | cons a t => simp [extractList, h1, hs]
  · intro h1 h2
    simp [extractList, h1, h2]

/-- Witness for C5: a document carrying both modern-markup and legacy-row
candidates returns exactly the modern-markup candidates; the legacy strategy
would have yielded a candidate but is not consulted. -/
theorem extract_fallback_chain_witness :
    extractList { base := "https://x.test/",
                  modernItems := [{ anchor := some { href := "https://x.test/d/a.html", text := " A ", titleAttr := none }, priceEl := some " $5 " }],
                  rowItems := [{ anchor := some { href := "https://x.test/d/b.html", text := "B", titleAttr := none }, priceEl := none }],
                  allLinks := [] }
        = dedupByUrl (strategy1 [{ anchor := some { href := "https://x.test/d/a.html", text := " A ", titleAttr := none }, priceEl := some " $5 " }]) ∧
    strategy2 [({ anchor := some { href := "https://x.test/d/b.html", text := "B", titleAttr := none }, priceEl := none } : RowItem)] ≠ [] :=
  ⟨(extract_fallback_chain _).1 (by decide), by decide⟩

/-! ## Claim theorems: the Listing data model (C8) -/

/-- Claim C8 (code bug in `models.py`): the orchestrator constructs a
`Listing` with an `is_free_item` keyword and the enrichment stage writes
`ad_quality_score`, `ad_quality_json` and `market_research_json`, but none
of these names is a mapped column of `class Listing`; the spec field list is
not contained in the declared columns. -/
theorem listing_model_missing_fields :
    "is_free_item" ∈ listingCtorKwargs ∧ "is_free_item" ∉ listingColumns ∧
    "ad_quality_score" ∈ enrichmentWriteFields ∧ "ad_quality_score" ∉ listingColumns ∧
    "ad_quality_json" ∈ enrichmentWriteFields ∧ "ad_quality_json" ∉ listingColumns ∧
    "market_research_json" ∈ enrichmentWriteFields ∧ "market_research_json" ∉ listingColumns ∧
    ¬ (∀ f ∈ specListingFields, f ∈ listingColumns) := by
  decide

/-! ## Dict and attribute-object lemmas -/

theorem mem_keysOf_of_mem {l : List (String × String)} {kv : String × String}
    (h : kv ∈ l) : kv.1 ∈ keysOf l := by
  induction l with
  | nil => cases h
  | cons hd tl ih =>
    rcases List.mem_cons.mp h with he | hm
    · subst he
      exact List.mem_cons_self _ _
    · exact List.mem_cons_of_mem _ (ih hm)

theorem dictLookup_set_self (d : Dict) (k : String) (v : Option String) :
    dictLookup (dictSet d k v) k = some v := by
  induction d with
  | nil => simp [dictSet, dictLookup]
  | cons hd tl ih =>
    obtain ⟨k', v'⟩ := hd
    by_cases h : k' = k
    · simp [dictSet, dictLookup, h]
    · simp [dictSet, dictLookup, h, ih]

theorem dictLookup_set_other (d : Dict) {k' k : String} (v : Option String) (h : k' ≠ k) :
    dictLookup (dictSet d k' v) k = dictLookup d k := by
  induction d with
  | nil => simp [dictSet, dictLookup, h]
  | cons hd tl ih =>
    obtain ⟨k₁, v₁⟩ := hd
    by_cases h1 : k₁ = k'
    · subst h1
      simp [dictSet, dictLookup, h]
    · by_cases h2 : k₁ = k
      · simp [dictSet, dictLookup, h1, h2, Ne.symm h]
      · simp [dictSet, dictLookup, h1, h2, ih]

theorem dictLookup_update_not_mem (attrs : List (String × String)) (d : Dict) (k : String)
    (h : ∀ kv ∈ attrs, kv.1 ≠ k) :
    dictLookup (dictUpdate d attrs) k = dictLookup d k := by
  induction attrs generalizing d with
  | nil => rfl
  | cons hd tl ih =>
    rw [dictUpdate, ih _ (fun kv hkv => h kv (List.mem_cons_of_mem _ hkv)),
      dictLookup_set_other _ _ (h hd (List.mem_cons_self _ _))]

theorem alLookup_eq_none_iff (l : List (String × String)) (k : String) :
    alLookup l k = none ↔ k ∉ keysOf l := by
  induction l with
  | nil => simp [alLookup, keysOf]
  | cons hd tl ih =>
    obtain ⟨k₁, v₁⟩ := hd
    by_cases h : k₁ = k
    · subst h
      simp [alLookup, keysOf]
    · simp [alLookup, keysOf, h, ih, (Ne.symm h : k ≠ k₁)]

theorem mem_keys_alSet (l : List (String × String)) (k v k' : String) :
    k' ∈ keysOf (alSet l k v) ↔ k' ∈ keysOf l ∨ k' = k := by
  induction l with
  | nil => simp [alSet, keysOf]
  | cons hd tl ih =>
    obtain ⟨k₁, v₁⟩ := hd
    by_cases h : k₁ = k
    · subst h
      simp [alSet, keysOf]
      tauto
    · simp [alSet, keysOf, h, ih]
      tauto

theorem alSet_nodup (l : List (String × String)) (k v : String)
    (h : (keysOf l).Nodup) : (keysOf (alSet l k v)).Nodup := by
  induction l with
  | nil => simp [alSet, keysOf]
  | cons hd tl ih =>
    obtain ⟨k₁, v₁⟩ := hd
    rw [keysOf, List.nodup_cons] at h
    by_cases hk : k₁ = k
    · subst hk
      rw [alSet, if_pos rfl, keysOf, List.nodup_cons]
      exact h
    · rw [alSet, if_neg hk, keysOf, List.nodup_cons]
      refine ⟨?_, ih h.2⟩
      intro hmem
      rcases (mem_keys_alSet tl k v k₁).mp hmem with hin | he
      · exact h.1 hin
      · exact hk he

theorem jsAttrStep_as_alSet (res : List (String × String)) (t : String) :
    ∃ k v, jsAttrStep res t = alSet res k v := by
  simp only [jsAttrStep]
  split
  · exact ⟨_, _, rfl⟩
  · split
    · split
      · exact ⟨_, _, rfl⟩
      · exact ⟨_, _, rfl⟩
    · exact ⟨_, _, rfl⟩

theorem jsAttrStep_nodup (res : List (String × String)) (t : String)
    (h : (keysOf res).Nodup) : (keysOf (jsAttrStep res t)).Nodup := by
  obtain ⟨k, v, he⟩ := jsAttrStep_as_alSet res t
  rw [he]
  exact alSet_nodup _ _ _ h

theorem buildAttrsAux_nodup (spans : List String) (res : List (String × String))
    (h : (keysOf res).Nodup) : (keysOf (buildAttrsAux res spans)).Nodup := by
  induction spans generalizing res with
  | nil => exact h
  | cons t rest ih => exact ih _ (jsAttrStep_nodup _ _ h)

theorem buildAttrs_nodup (spans : List String) : (keysOf (buildAttrs spans)).Nodup :=
  buildAttrsAux_nodup spans [] (by simp [keysOf])

theorem dictLookup_update_found (attrs : List (String × String)) (d : Dict)
    (k v : String) (hnd : (keysOf attrs).Nodup) (hv : alLookup attrs k = some v) :
    dictLookup (dictUpdate d attrs) k = some (some v) := by
  induction attrs generalizing d with
  | nil => simp [alLookup] at hv
  | cons hd tl ih =>
    obtain ⟨k₁, v₁⟩ := hd
    rw [keysOf, List.nodup_cons] at hnd
    by_cases h : k₁ = k
    · subst h
      rw [alLookup, if_pos rfl] at hv
      have hvv : v₁ = v := by simpa using hv
      rw [dictUpdate, dictLookup_update_not_mem]
      · rw [dictLookup_set_self, hvv]
      · intro kv hkv he
        have hm : kv.1 ∈ keysOf tl := mem_keysOf_of_mem hkv
        rw [he] at hm
        exact hnd.1 hm
    · rw [alLookup, if_neg h] at hv
      rw [dictUpdate]
      exact ih _ hnd.2 hv

/-! ## Claim theorems: detail-mode extraction -/

theorem details_avoid_frame (p : DetailPage) (k : String) (h : attrsAvoidB p k = true) :
    dictLookup (scrape_listing_details (DetailFetch.page p)) k
      = dictLookup (detailsCore p) k := by
  unfold attrsAvoidB at h
  cases hs : p.attrSpans with
  | none =>
    simp only [scrape_listing_details]
    rw [hs]
  | some spans =>
    rw [hs] at h
    have h2 : alLookup (buildAttrs spans) k = none := Option.isNone_iff_eq_none.mp h
    have hgoal : scrape_listing_details (DetailFetch.page p)
        = dictUpdate (detailsCore p) (buildAttrs spans) := by
      simp only [scrape_listing_details]
      rw [hs]
    rw [hgoal]
    apply dictLookup_update_not_mem
    intro kv hkv he
    have hm : kv.1 ∈ keysOf (buildAttrs spans) := mem_keysOf_of_mem hkv
    rw [he] at hm
    exact (alLookup_eq_none_iff _ _).mp h2 hm

/-- Claim C9: each detail field is extracted in isolation — when the
corresponding structural element is missing (and the attribute map does not
shadow the key) the field resolves to its defined default (title
`"Unknown"`, description `""`, price and location `None` after their
fallback selectors), independently of the other fields. -/
theorem detail_default_on_miss (p : DetailPage) :
    (attrsAvoidB p "title" = true →
      dictLookup (scrape_listing_details (DetailFetch.page p)) "title"
        = some (some (p.titleRes.getD "Unknown"))) ∧
    (attrsAvoidB p "description" = true →
      dictLookup (scrape_listing_details (DetailFetch.page p)) "description"
        = some (some (p.bodyRes.getD ""))) ∧
    (attrsAvoidB p "price" = true →
      dictLookup (scrape_listing_details (DetailFetch.page p)) "price"
        = some (match p.priceRes with | some s => some s | none => p.priceAltRes)) ∧
    (attrsAvoidB p "location" = true →
      dictLookup (scrape_listing_details (DetailFetch.page p)) "location"
        = some (match p.locRes with | some s => some s | none => p.locAltRes)) := by
  refine ⟨fun h => ?_, fun h => ?_, fun h => ?_, fun h => ?_⟩ <;>
    rw [details_avoid_frame p _ h] <;> rfl

/-- Witness for C9: a page with no price markup (both price selectors miss)
still extracts title and description, and its price is stored as `None`. -/
theorem detail_default_on_miss_witness :
    dictLookup (scrape_listing_details (DetailFetch.page
        ⟨some "2005 Honda", some "runs great", none, none, none, none,
          some ["odometer: 45,000"]⟩)) "price" = some none ∧
    dictLookup (scrape_listing_details (DetailFetch.page
        ⟨some "2005 Honda", some "runs great", none, none, none, none,
          some ["odometer: 45,000"]⟩)) "title" = some (some "2005 Honda") :=
  ⟨(detail_default_on_miss _).2.2.1 (by decide),
   (detail_default_on_miss _).1 (by decide)⟩

/-- Claim C10: the parsed attribute map is merged into the same flat record
as the core fields — an attribute whose lower-cased key collides with a core
field replaces the value extracted earlier in the call, and every key the
attribute map does not define keeps its core value. -/
theorem detail_attr_merge (p : DetailPage) (spans : List String)
    (h : p.attrSpans = some spans) :
    (∀ k v, alLookup (buildAttrs spans) k = some v →
      dictLookup (scrape_listing_details (DetailFetch.page p)) k = some (some v)) ∧
    (∀ k, alLookup (buildAttrs spans) k = none →
      dictLookup (scrape_listing_details (DetailFetch.page p)) k
        = dictLookup (detailsCore p) k) := by
  constructor
  · intro k v hv
    have hgoal : scrape_listing_details (DetailFetch.page p)
        = dictUpdate (detailsCore p) (buildAttrs spans) := by
      simp only [scrape_listing_details]
      rw [h]
    rw [hgoal]
    exact dictLookup_update_found _ _ _ _ (buildAttrs_nodup spans) hv
  · intro k hk
    apply details_avoid_frame
    unfold attrsAvoidB
    rw [h]
    show (alLookup (buildAttrs spans) k).isNone = true
    rw [hk]
    rfl

/-- Witness for C10: an attribute span `Title: Better Name` overrides the
title extracted from the page markup. -/
theorem detail_attr_merge_witness :
    dictLookup (scrape_listing_details (DetailFetch.page
        ⟨some "old title", some "body", none, none, none, none,
          some ["Title: Better Name"]⟩)) "title" = some (some "Better Name") :=
  (detail_attr_merge ⟨some "old title", some "body", none, none, none, none,
      some ["Title: Better Name"]⟩ ["Title: Better Name"] rfl).1
    "title" "Better Name" (by decide)

/-! ## Orchestrator lemmas -/

theorem applyDetails_url (l : StoredListing) (d : Dict) : (applyDetails l d).url = l.url := rfl

theorem applyAnalysis_url (l : StoredListing) (a : AnalysisResult) :
    (applyAnalysis l a).url = l.url := rfl

theorem mkListing_url (it : Item) : (mkListing it).url = it.url := rfl

theorem applyEnrich_url (cfg : AIConfig) (env : ItemEnv) (l1 : StoredListing) :
    (applyEnrich cfg env l1).url = l1.url := by
  unfold applyEnrich
  cases env.adOutcome <;> cases env.mrOutcome <;> rfl

theorem urlsOf_insert (db : Store) (l : StoredListing) :
    urlsOf (insertListing db l) = urlsOf db ++ [l.url] := by
  simp [urlsOf, insertListing]

theorem urlsOf_update (db : Store) (u : String) (l : StoredListing) (h : l.url = u) :
    urlsOf (updateByUrl db u l) = urlsOf db := by
  induction db with
  | nil => rfl
  | cons x tl ih =>
    simp only [updateByUrl, urlsOf, List.map_cons] at ih ⊢
    by_cases hx : x.url = u
    · rw [if_pos hx, h, hx, ih]
    · rw [if_neg hx, ih]

theorem findByUrl_eq_none_iff (db : Store) (u : String) :
    findByUrl db u = none ↔ u ∉ urlsOf db := by
  induction db with
  | nil => simp [findByUrl, urlsOf]
  | cons x tl ih =>
    by_cases hx : x.url = u
    · simp [findByUrl, urlsOf, hx]
    · simp [findByUrl, urlsOf, hx, ih, (Ne.symm hx : u ≠ x.url)]

theorem findByUrl_isSome_of_mem (db : Store) (u : String) (h : u ∈ urlsOf db) :
    (findByUrl db u).isSome = true := by
  cases hf : findByUrl db u with
  | some x => rfl
  | none => exact absurd h ((findByUrl_eq_none_iff db u).mp hf)

theorem mem_of_findByUrl_isSome (db : Store) (u : String)
    (h : (findByUrl db u).isSome = true) : u ∈ urlsOf db := by
  by_contra hn
  rw [(findByUrl_eq_none_iff db u).mpr hn] at h
  simp at h

theorem processItem_queryRaise (cfg : AIConfig) (db : Store) (it : Item) (env : ItemEnv)
    (msg : String) (hq : env.queryRaises = some msg) :
    processItem cfg db it env
      = (db, false, ["Error processing listing " ++ it.url ++ ": " ++ msg]) := by
  unfold processItem
  rw [hq]

theorem processItem_skip (cfg : AIConfig) (db : Store) (it : Item) (env : ItemEnv)
    (hq : env.queryRaises = none) (hf : (findByUrl db it.url).isSome = true) :
    processItem cfg db it env = (db, false, []) := by
  simp [processItem, hq, hf]

theorem processItem_found_frame (cfg : AIConfig) (db : Store) (it : Item) (env : ItemEnv)
    (hf : (findByUrl db it.url).isSome = true) :
    (processItem cfg db it env).1 = db ∧ (processItem cfg db it env).2.1 = false := by
  cases hq : env.queryRaises with
  | some msg => rw [processItem_queryRaise cfg db it env msg hq]; exact ⟨rfl, rfl⟩
  | none => rw [processItem_skip cfg db it env hq hf]; exact ⟨rfl, rfl⟩

theorem processItem_fresh_detailFail (cfg : AIConfig) (db : Store) (it : Item)
    (env : ItemEnv) (msg : String) (hq : env.queryRaises = none)
    (hf : findByUrl db it.url = none) (hd : env.detailOutcome = Except.error msg) :
    processItem cfg db it env
      = (insertListing db (mkListing it), false,
          ["Failed to scrape details for " ++ it.url ++ ": " ++ msg]) := by
  simp [processItem, hq, hf, hd]

theorem processItem_fresh_ok (cfg : AIConfig) (db : Store) (it : Item) (env : ItemEnv)
    (d : Dict) (hq : env.queryRaises = none) (hf : findByUrl db it.url = none)
    (hd : env.detailOutcome = Except.ok d) :
    (processItem cfg db it env).2.1 = true ∧
    (processItem cfg db it env).2.2 = [] ∧
    urlsOf (processItem cfg db it env).1 = urlsOf db ++ [it.url] := by
  simp only [processItem, hq, hf, Option.isSome_none, Bool.false_eq_true, if_false, hd]
  refine ⟨by trivial, by trivial, ?_⟩
  cases har : (env.aiBlockRaises) with
  | some m =>
    show urlsOf (updateByUrl (insertListing db (mkListing it)) it.url
        (applyDetails (mkListing it) d)) = urlsOf db ++ [it.url]
    rw [urlsOf_update _ _ _ (by rw [applyDetails_url, mkListing_url]),
      urlsOf_insert, mkListing_url]
  | none =>
    show urlsOf (updateByUrl
        (updateByUrl (insertListing db (mkListing it)) it.url (applyDetails (mkListing it) d))
        it.url (applyEnrich cfg env (applyDetails (mkListing it) d)))
      = urlsOf db ++ [it.url]
    rw [urlsOf_update _ _ _ (by rw [applyEnrich_url, applyDetails_url, mkListing_url]),
      urlsOf_update _ _ _ (by rw [applyDetails_url, mkListing_url]),
      urlsOf_insert, mkListing_url]

theorem processItem_mem_after (cfg : AIConfig) (db : Store) (it : Item) (env : ItemEnv)
    (hq : env.queryRaises = none) : it.url ∈ urlsOf (processItem cfg db it env).1 := by
  cases hf : findByUrl db it.url with
  | some x =>
    rw [processItem_skip cfg db it env hq (by rw [hf]; rfl)]
    exact mem_of_findByUrl_isSome db it.url (by rw [hf]; rfl)
  | none =>
    cases hd : env.detailOutcome with
    | error msg =>
      rw [processItem_fresh_detailFail cfg db it env msg hq hf hd]
      simp [urlsOf_insert, mkListing_url]
    | ok d =>
      rw [(processItem_fresh_ok cfg db it env d hq hf hd).2.2]
      simp

theorem processItem_urls_cases (cfg : AIConfig) (db : Store) (it : Item) (env : ItemEnv) :
    urlsOf (processItem cfg db it env).1 = urlsOf db ∨
    (findByUrl db it.url = none ∧
      urlsOf (processItem cfg db it env).1 = urlsOf db ++ [it.url]) := by
  cases hq : env.queryRaises with
  | some msg =>
    left
    rw [processItem_queryRaise cfg db it env msg hq]
  | none =>
    cases hf : findByUrl db it.url with
    | some x =>
      left
      rw [processItem_skip cfg db it env hq (by rw [hf]; rfl)]
    | none =>
      right
      refine ⟨rfl, ?_⟩
      cases hd : env.detailOutcome with
      | error msg =>
        rw [processItem_fresh_detailFail cfg db it env msg hq hf hd,
          urlsOf_insert, mkListing_url]
      | ok d => exact (processItem_fresh_ok cfg db it env d hq hf hd).2.2

theorem runItems_cons_store (cfg : AIConfig) (env : String → ItemEnv) (db : Store)
    (it : Item) (rest : List Item) :
    (runItems cfg env db (it :: rest)).store
      = (runItems cfg env (processItem cfg db it (env it.url)).1 rest).store := rfl

theorem runItems_cons_processed (cfg : AIConfig) (env : String → ItemEnv) (db : Store)
    (it : Item) (rest : List Item) :
    (runItems cfg env db (it :: rest)).processed
      = (runItems cfg env (processItem cfg db it (env it.url)).1 rest).processed + 1 := rfl

theorem runItems_cons_added (cfg : AIConfig) (env : String → ItemEnv) (db : Store)
    (it : Item) (rest : List Item) :
    (runItems cfg env db (it :: rest)).added
      = (runItems cfg env (processItem cfg db it (env it.url)).1 rest).added
        + (if (processItem cfg db it (env it.url)).2.1 then 1 else 0) := rfl

theorem runItems_cons_errors (cfg : AIConfig) (env : String → ItemEnv) (db : Store)
    (it : Item) (rest : List Item) :
    (runItems cfg env db (it :: rest)).errors
      = (processItem cfg db it (env it.url)).2.2
        ++ (runItems cfg env (processItem cfg db it (env it.url)).1 rest).errors := rfl

theorem runItems_mono (cfg : AIConfig) (env : String → ItemEnv) (db : Store)
    (items : List Item) (u : String) (h : u ∈ urlsOf db) :
    u ∈ urlsOf (runItems cfg env db items).store := by
  induction items generalizing db with
  | nil => exact h
  | cons it rest ih =>
    rw [runItems_cons_store]
    apply ih
    rcases processItem_urls_cases cfg db it (env it.url) with he | ⟨_, he⟩
    · rw [he]; exact h
    · rw [he]; exact List.mem_append_left _ h

theorem runItems_nodup (cfg : AIConfig) (env : String → ItemEnv) (db : Store)
    (items : List Item) (h : (urlsOf db).Nodup) :
    (urlsOf (runItems cfg env db items).store).Nodup := by
  induction items generalizing db with
  | nil => exact h
  | cons it rest ih =>
    rw [runItems_cons_store]
    apply ih
    rcases processItem_urls_cases cfg db it (env it.url) with he | ⟨hf, he⟩
    · rw [he]; exact h
    · rw [he, List.nodup_append]
      refine ⟨h, List.nodup_singleton _, ?_⟩
      intro a ha hb
      rw [List.mem_singleton] at hb
      subst hb
      exact (findByUrl_eq_none_iff db it.url).mp hf ha

theorem runItems_skip_all (cfg : AIConfig) (env : String → ItemEnv) (db : Store)
    (items : List Item) (h : ∀ it ∈ items, it.url ∈ urlsOf db) :
    (runItems cfg env db items).store = db ∧ (runItems cfg env db items).added = 0 := by
  induction items with
  | nil => exact ⟨rfl, rfl⟩
  | cons it rest ih =>
    have hf : (findByUrl db it.url).isSome = true :=
      findByUrl_isSome_of_mem db it.url (h it (List.mem_cons_self _ _))
    have hframe := processItem_found_frame cfg db it (env it.url) hf
    have hrest := ih (fun x hx => h x (List.mem_cons_of_mem _ hx))
    constructor
    · rw [runItems_cons_store, hframe.1]
      exact hrest.1
    · rw [runItems_cons_added, hframe.1, hframe.2, hrest.2]
      simp

theorem runItems_all_present (cfg : AIConfig) (env : String → ItemEnv) (db : Store)
    (items : List Item) (h : ∀ it ∈ items, (env it.url).queryRaises = none) :
    ∀ it ∈ items, it.url ∈ urlsOf (runItems cfg env db items).store := by
  induction items generalizing db with
  | nil => intro it hit; cases hit
  | cons a rest ih =>
    intro it hit
    rcases List.mem_cons.mp hit with he | hm
    · subst he
      rw [runItems_cons_store]
      exact runItems_mono cfg env _ rest it.url
        (processItem_mem_after cfg db it (env it.url) (h it (List.mem_cons_self _ _)))
    · rw [runItems_cons_store]
      exact ih _ (fun x hx => h x (List.mem_cons_of_mem _ hx)) it hm

theorem runItems_append (cfg : AIConfig) (env : String → ItemEnv) (db : Store)
    (as bs : List Item) :
    (runItems cfg env db (as ++ bs)).store
      = (runItems cfg env (runItems cfg env db as).store bs).store ∧
    (runItems cfg env db (as ++ bs)).processed
      = (runItems cfg env db as).processed
        + (runItems cfg env (runItems cfg env db as).store bs).processed ∧
    (runItems cfg env db (as ++ bs)).added
      = (runItems cfg env db as).added
        + (runItems cfg env (runItems cfg env db as).store bs).added ∧
    (runItems cfg env db (as ++ bs)).errors
      = (runItems cfg env db as).errors
        ++ (runItems cfg env (runItems cfg env db as).store bs).errors := by
  induction as generalizing db with
  | nil => exact ⟨rfl, by simp [runItems], by simp [runItems], by simp [runItems]⟩
  | cons a as ih =>
    have ihs := ih ((processItem cfg db a (env a.url)).1)
    refine ⟨?_, ?_, ?_, ?_⟩
    · rw [List.cons_append, runItems_cons_store, ihs.1, runItems_cons_store]
    · rw [List.cons_append, runItems_cons_processed, ihs.2.1, runItems_cons_processed,
        runItems_cons_store]
      omega
    · rw [List.cons_append, runItems_cons_added, ihs.2.2.1, runItems_cons_added,
        runItems_cons_store]
      omega
    · rw [List.cons_append, runItems_cons_errors, ihs.2.2.2, runItems_cons_errors,
        runItems_cons_store, List.append_assoc]

theorem runItems_good (cfg : AIConfig) (env : String → ItemEnv) (items : List Item) :
    ∀ db : Store,
      (∀ it ∈ items, goodEnvB (env it.url) = true) →
      (∀ it ∈ items, it.url ∉ urlsOf db) →
      (items.map (fun it => it.url)).Nodup →
      (runItems cfg env db items).processed = items.length ∧
      (runItems cfg env db items).added = items.length ∧
      (runItems cfg env db items).errors = [] ∧
      urlsOf (runItems cfg env db items).store = urlsOf db ++ items.map (fun it => it.url) := by
  induction items with
  | nil => intro db _ _ _; exact ⟨rfl, rfl, rfl, by simp [runItems]⟩
  | cons a rest ih =>
    intro db hgood hfresh hnd
    have hga := hgood a (List.mem_cons_self _ _)
    unfold goodEnvB at hga
    rw [Bool.and_eq_true] at hga
    have hq : (env a.url).queryRaises = none := Option.isNone_iff_eq_none.mp hga.1
    have hdo : ∃ d, (env a.url).detailOutcome = Except.ok d := by
      cases hcase : (env a.url).detailOutcome with
      | ok d => exact ⟨d, rfl⟩
      | error m =>
        rw [hcase] at hga
        exact absurd hga.2 (by simp [exceptOk])
    obtain ⟨d, hd⟩ := hdo
    have hf : findByUrl db a.url = none :=
      (findByUrl_eq_none_iff db a.url).mpr (hfresh a (List.mem_cons_self _ _))
    have hok := processItem_fresh_ok cfg db a (env a.url) d hq hf hd
    rw [List.map_cons, List.nodup_cons] at hnd
    have hrest := ih ((processItem cfg db a (env a.url)).1)
      (fun x hx => hgood x (List.mem_cons_of_mem _ hx))
      (fun x hx => by
        rw [hok.2.2]
        intro hmem
        rcases List.mem_append.mp hmem with hin | hin
        · exact hfresh x (List.mem_cons_of_mem _ hx) hin
        · rw [List.mem_singleton] at hin
          have hxin : x.url ∈ rest.map (fun it => it.url) :=
            List.mem_map_of_mem _ hx
          rw [hin] at hxin
          exact hnd.1 hxin)
      hnd.2
    refine ⟨?_, ?_, ?_, ?_⟩
    · rw [runItems_cons_processed, hrest.1, List.length_cons]
    · rw [runItems_cons_added, hrest.2.1, hok.1, List.length_cons]
      simp
    · rw [runItems_cons_errors, hok.2.1, hrest.2.2.1]
      rfl
    · rw [runItems_cons_store, hrest.2.2.2, hok.2.2, List.map_cons, List.append_assoc]
      rfl

/-! ## Claim theorems: orchestrator -/

/-- Claim C1: a candidate whose URL is already stored never changes the
store and never increments `listings_added`; re-running a batch over the
store the first run produced changes nothing and adds zero; and the
at-most-one-Listing-per-url invariant is preserved by every batch over any
per-item environment. -/
theorem ingest_dedup_idempotent :
    (∀ (cfg : AIConfig) (db : Store) (it : Item) (env : ItemEnv),
      (findByUrl db it.url).isSome = true →
      (processItem cfg db it env).1 = db ∧ (processItem cfg db it env).2.1 = false) ∧
    (∀ (cfg : AIConfig) (env : String → ItemEnv) (db : Store) (items : List Item),
      (∀ it ∈ items, (env it.url).queryRaises = none) →
      (runItems cfg env (runItems cfg env db items).store items).store
        = (runItems cfg env db items).store ∧
      (runItems cfg env (runItems cfg env db items).store items).added = 0) ∧
    (∀ (cfg : AIConfig) (env : String → ItemEnv) (db : Store) (items : List Item),
      (urlsOf db).Nodup → (urlsOf (runItems cfg env db items).store).Nodup) := by
  refine ⟨fun cfg db it env hf => processItem_found_frame cfg db it env hf, ?_,
    fun cfg env db items h => runItems_nodup cfg env db items h⟩
  intro cfg env db items h
  exact runItems_skip_all cfg env (runItems cfg env db items).store items
    (fun it hit => runItems_all_present cfg env db items h it hit)

/-- Witness for C1: one concrete batch run twice over an initially empty
store adds nothing the second time. -/
theorem ingest_dedup_idempotent_witness :
    (runItems ⟨false, none⟩ (fun _ => {})
        (runItems ⟨false, none⟩ (fun _ => {}) [] [{ url := "https://x.test/d/a.html" }]).store
        [{ url := "https://x.test/d/a.html" }]).added = 0 :=
  (ingest_dedup_idempotent.2.1 ⟨false, none⟩ (fun _ => {}) []
      [{ url := "https://x.test/d/a.html" }] (fun _ _ => rfl)).2

/-- Counterexample for C2 as stated: a batch of one fresh item whose
enrichment stage raises ends with `added = 1` and an empty error list, not
`added = N - 1 = 0` with one error entry. -/
theorem per_item_isolation_counterexample :
    ¬ ((runItems ⟨true, some Provider.openai⟩
          (fun _ => { aiBlockRaises := some "commit failed" }) []
          [{ url := "https://x.test/d/a.html" }]).added = 0 ∧
       (runItems ⟨true, some Provider.openai⟩
          (fun _ => { aiBlockRaises := some "commit failed" }) []
          [{ url := "https://x.test/d/a.html" }]).errors.length = 1) := by
  decide

/-- Claim C2 amended: an exception between the dedup check and the detail
fetch is caught, appends one error entry naming the item URL, and the batch
reports `processed = N`, `added = N - 1`; an exception inside the enrichment
block is caught one level deeper, appends no error entry and does not block
the increment, so there `processed = N` and `added = N` with an empty error
list.  In both shapes the remaining items are processed. -/
theorem per_item_isolation_amended :
    (∀ (cfg : AIConfig) (env : String → ItemEnv) (db : Store)
        (pre : List Item) (bad : Item) (post : List Item) (msg : String),
      (∀ it ∈ pre ++ bad :: post, it.url ∉ urlsOf db) →
      ((pre ++ bad :: post).map (fun it => it.url)).Nodup →
      (∀ it ∈ pre ++ post, goodEnvB (env it.url) = true) →
      (env bad.url).queryRaises = none →
      (env bad.url).detailOutcome = Except.error msg →
      (runItems cfg env db (pre ++ bad :: post)).processed
          = pre.length + post.length + 1 ∧
      (runItems cfg env db (pre ++ bad :: post)).added = pre.length + post.length ∧
      (runItems cfg env db (pre ++ bad :: post)).errors
          = ["Failed to scrape details for " ++ bad.url ++ ": " ++ msg]) ∧
    (∀ (cfg : AIConfig) (env : String → ItemEnv) (db : Store) (items : List Item),
      (∀ it ∈ items, it.url ∉ urlsOf db) →
      (items.map (fun it => it.url)).Nodup →
      (∀ it ∈ items, goodEnvB (env it.url) = true) →
      (runItems cfg env db items).processed = items.length ∧
      (runItems cfg env db items).added = items.length ∧
      (runItems cfg env db items).errors = []) := by
  constructor
  · intro cfg env db pre bad post msg hfresh hnd hgood hq hd
    have hsplit1 := runItems_append cfg env db pre (bad :: post)
    -- the map over the whole batch, split
    have hmap : (pre ++ bad :: post).map (fun it => it.url)
        = pre.map (fun it => it.url) ++ bad.url :: post.map (fun it => it.url) := by
      simp
    rw [hmap] at hnd
    have hndpre : (pre.map (fun it => it.url)).Nodup :=
      (List.nodup_append.mp hnd).1
    have hdisj := (List.nodup_append.mp hnd).2.2
    have hndmid := (List.nodup_append.mp hnd).2.1
    rw [List.nodup_cons] at hndmid
    -- the good prefix
    have hpre := runItems_good cfg env pre db
      (fun x hx => hgood x (List.mem_append_left _ hx))
      (fun x hx => hfresh x (List.mem_append_left _ hx))
      hndpre
    -- the bad item runs at the store the prefix produced
    have hbadfresh : findByUrl (runItems cfg env db pre).store bad.url = none := by
      rw [findByUrl_eq_none_iff, hpre.2.2.2]
      intro hmem
      rcases List.mem_append.mp hmem with hin | hin
      · exact hfresh bad (List.mem_append_right _ (List.mem_cons_self _ _)) hin
      · exact hdisj hin (List.mem_cons_self _ _)
    have hbad := processItem_fresh_detailFail cfg (runItems cfg env db pre).store bad
      (env bad.url) msg hq hbadfresh hd
    -- the good suffix runs at the store after the bad insert
    have hposturls : urlsOf (processItem cfg (runItems cfg env db pre).store bad
        (env bad.url)).1 = urlsOf db ++ pre.map (fun it => it.url) ++ [bad.url] := by
      rw [hbad, urlsOf_insert, mkListing_url, hpre.2.2.2]
    have hpost := runItems_good cfg env post
      (processItem cfg (runItems cfg env db pre).store bad (env bad.url)).1
      (fun x hx => hgood x (List.mem_append_right _ hx))
      (fun x hx => by
        rw [hposturls]
        intro hmem
        rcases List.mem_append.mp hmem with hmem1 | hmem1
        · rcases List.mem_append.mp hmem1 with hin | hin
          · exact hfresh x (List.mem_append_right _ (List.mem_cons_of_mem _ hx)) hin
          · exact hdisj hin (List.mem_cons_of_mem _ (List.mem_map_of_mem _ hx))
        · rw [List.mem_singleton] at hmem1
          have hxin : x.url ∈ post.map (fun it => it.url) := List.mem_map_of_mem _ hx
          rw [hmem1] at hxin
          exact hndmid.1 hxin)
      hndmid.2
    refine ⟨?_, ?_, ?_⟩
    · rw [hsplit1.2.1, hpre.1, runItems_cons_processed, hpost.1]
      omega
    · rw [hsplit1.2.2.1, hpre.2.1, runItems_cons_added, hpost.2.1, hbad]
      simp
    · rw [hsplit1.2.2.2, hpre.2.2.1, runItems_cons_errors, hpost.2.2.1, hbad]
      simp
  · intro cfg env db items hfresh hnd hgood
    have h := runItems_good cfg env items db hgood hfresh hnd
    exact ⟨h.1, h.2.1, h.2.2.1⟩

/-- Witness for C2 amended: a three-item batch whose middle item fails its
detail fetch reports three processed, two added and exactly one error entry
naming the failing URL. -/
theorem per_item_isolation_amended_witness :
    (runItems ⟨false, none⟩
        (fun u => if u = "https://x.test/d/b.html"
                  then { detailOutcome := Except.error "timeout" } else {}) []
        ([{ url := "https://x.test/d/a.html" }] ++ { url := "https://x.test/d/b.html" }
          :: [{ url := "https://x.test/d/c.html" }])).processed = 3 ∧
    (runItems ⟨false, none⟩
        (fun u => if u = "https://x.test/d/b.html"
                  then { detailOutcome := Except.error "timeout" } else {}) []
        ([{ url := "https://x.test/d/a.html" }] ++ { url := "https://x.test/d/b.html" }
          :: [{ url := "https://x.test/d/c.html" }])).added = 2 ∧
    (runItems ⟨false, none⟩
        (fun u => if u = "https://x.test/d/b.html"
                  then { detailOutcome := Except.error "timeout" } else {}) []
        ([{ url := "https://x.test/d/a.html" }] ++ { url := "https://x.test/d/b.html" }
          :: [{ url := "https://x.test/d/c.html" }])).errors
      = ["Failed to scrape details for https://x.test/d/b.html: timeout"] :=
  per_item_isolation_amended.1 ⟨false, none⟩
    (fun u => if u = "https://x.test/d/b.html"
              then { detailOutcome := Except.error "timeout" } else {})
    [] [{ url := "https://x.test/d/a.html" }] { url := "https://x.test/d/b.html" }
    [{ url := "https://x.test/d/c.html" }] "timeout"
    (by decide) (by decide) (by decide) (by decide) (by rfl)

/-! ## Claim theorems: URL fragments and list-fetch failure -/

theorem takeWhile_until_hash (a b : List Char)
    (h : a.all (fun c => c ≠ '#') = true) :
    (a ++ '#' :: b).takeWhile (fun c => c ≠ '#') = a := by
  induction a with
  | nil => simp [List.takeWhile_cons]
  | cons c t ih =>
    rw [List.all_cons, Bool.and_eq_true] at h
    simp only [List.cons_append, List.takeWhile_cons, h.1]
    rw [ih h.2]
    simp

theorem clean_url_strips_fragment (u f : String)
    (h : u.data.all (fun c => c ≠ '#') = true) :
    clean_url (u ++ "#" ++ f) = u := by
  unfold clean_url
  have hdata : (u ++ "#" ++ f).data = u.data ++ '#' :: f.data := by
    rw [strDataAppend, strDataAppend, List.append_assoc]
    rfl
  rw [hdata, takeWhile_until_hash _ _ h]

/-- Counterexample for C6 as stated: two candidates whose URLs differ only
by a fragment suffix both pass the dedup gate and produce two Listings; the
claim says at most one Listing between them. -/
theorem fragment_dedup_counterexample :
    ¬ ((runItems ⟨false, none⟩ (fun _ => {}) []
          [{ url := "https://x.test/d/item.html#foo" },
           { url := "https://x.test/d/item.html" }]).store.length ≤ 1) := by
  decide

/-- Claim C6 amended: the fragment suffix is stripped only from the category
URL before the list fetch; listing URLs are used verbatim as the stored
`url` and dedup key, so the two example URLs create two distinct Listings. -/
theorem fragment_normalization_amended :
    (∀ u f : String, u.data.all (fun c => c ≠ '#') = true →
      categoryFetchTarget (u ++ "#" ++ f) = u) ∧
    ((runItems ⟨false, none⟩ (fun _ => {}) []
        [{ url := "https://x.test/d/item.html#foo" },
         { url := "https://x.test/d/item.html" }]).store.map (fun l => l.url)
      = ["https://x.test/d/item.html#foo", "https://x.test/d/item.html"]) :=
  ⟨fun u f h => clean_url_strips_fragment u f h, by decide⟩

/-- Witness for C6 amended: the category fetch target for a concrete URL
with a fragment is the URL without the fragment. -/
theorem fragment_normalization_amended_witness :
    categoryFetchTarget ("https://x.test/search/cto" ++ "#" ++ "foo")
      = "https://x.test/search/cto" :=
  fragment_normalization_amended.1 "https://x.test/search/cto" "foo" (by decide)

/-- Counterexample for C7 as stated: a navigation failure during the list
fetch does not record a fatal error — the batch error list stays empty. -/
theorem fetch_failure_counterexample :
    ¬ ((run_scrape_job ⟨false, none⟩
          (CategoryFetch.gotoFail "net::ERR_CONNECTION_REFUSED")
          (fun _ => {}) []).errors ≠ []) := by
  decide

/-- Claim C7 amended: a transport/render error inside the list fetch is
caught by the scraper and surfaces as an empty candidate list, so the batch
ends with `processed = 0`, `added = 0` and an empty error list, logged like
the distinct zero-candidate condition; only an exception outside the
scraper's inner `try` (for example a browser-launch failure) records the
fatal error with `processed = 0`, `added = 0`; a successful fetch with zero
candidates is an empty success with its own `no candidates` log line and an
empty error list. -/
theorem fetch_failure_amended :
    (∀ (cfg : AIConfig) (env : String → ItemEnv) (db : Store) (msg : String),
      run_scrape_job cfg (CategoryFetch.gotoFail msg) env db
        = { store := db, processed := 0, added := 0, errors := [],
            logs := ["Error scraping: " ++ msg, "No listings found for URL"] }) ∧
    (∀ (cfg : AIConfig) (env : String → ItemEnv) (db : Store) (msg : String),
      run_scrape_job cfg (CategoryFetch.launchFail msg) env db
        = { store := db, processed := 0, added := 0,
            errors := ["Fatal error: " ++ msg], logs := [] }) ∧
    (∀ (cfg : AIConfig) (env : String → ItemEnv) (db : Store) (doc : ListDoc),
      extractList doc = [] →
      run_scrape_job cfg (CategoryFetch.page doc) env db
        = { store := db, processed := 0, added := 0, errors := [],
            logs := ["No listings found. Page title: logged",
                     "No listings found for URL"] }) := by
  refine ⟨fun cfg env db msg => rfl, fun cfg env db msg => rfl,
    fun cfg env db doc h => ?_⟩
  simp [run_scrape_job, scrape_category, h]

/-- Witness for C7 amended: a rendered page yielding zero candidates ends as
an empty success with the two warning log lines and no error. -/
theorem fetch_failure_amended_witness :
    run_scrape_job ⟨false, none⟩
        (CategoryFetch.page { base := "https://x.test/", modernItems := [],
                              rowItems := [], allLinks := [] })
        (fun _ => {}) []
      = { store := [], processed := 0, added := 0, errors := [],
          logs := ["No listings found. Page title: logged",
                   "No listings found for URL"] } :=
  fetch_failure_amended.2.2 ⟨false, none⟩ (fun _ => {}) []
    { base := "https://x.test/", modernItems := [], rowItems := [], allLinks := [] }
    (by decide)
